import Mathlib

/-!
Verification of the voice-snake application core: a shallow embedding of
the game simulation (`SnakeGame` in `geminiLiveService.ts`), the control
dispatcher (`handleControlAction` in `App.tsx`), the playback scheduler and
the teardown routine of `GeminiLiveService`, together with theorems about
the specified behaviour.
-/

namespace VoiceSnake

/-- Direction enum from `types.ts`. -/
inductive Direction
  | UP
  | DOWN
  | LEFT
  | RIGHT
deriving DecidableEq, Repr, BEq

/-- GameStatus enum from `types.ts`. -/
inductive GameStatus
  | IDLE
  | PLAYING
  | PAUSED
  | GAME_OVER
deriving DecidableEq, Repr, BEq

/-- SnakeSegment from `types.ts`: a grid coordinate pair.  Coordinates are
integers since the head computation can step to `-1`. -/
structure SnakeSegment where
  x : Int
  y : Int
deriving DecidableEq, Repr

/-- ControlAction from `types.ts`: union of the four control verbs and the
four directions. -/
inductive ControlAction
  | START
  | STOP
  | RESTART
  | PAUSE
  | dir (d : Direction)
deriving DecidableEq, Repr

/-- `GRID_SIZE = 20` from `SnakeGame`. -/
def GRID_SIZE : Int := 20

/-- Coordinate equality test, as written in the source
(`seg.x === other.x && seg.y === other.y`). -/
def segEq (a b : SnakeSegment) : Bool :=
  a.x == b.x && a.y == b.y

/-- The 180-degree-turn test of the anti-reversal effect in `SnakeGame`
(lines 217-221 of the component). -/
def isOpposite (direction currentDir : Direction) : Bool :=
  (direction == Direction.UP && currentDir == Direction.DOWN) ||
  (direction == Direction.DOWN && currentDir == Direction.UP) ||
  (direction == Direction.LEFT && currentDir == Direction.RIGHT) ||
  (direction == Direction.RIGHT && currentDir == Direction.LEFT)

/-- The React state of the `SnakeGame` component: the segment list (head
first), the food cell, the committed direction (`currentDir` state), and the
staged direction (`requestedDirRef`). -/
structure GameState where
  snake : List SnakeSegment
  food : SnakeSegment
  currentDir : Direction
  requestedDir : Direction
deriving DecidableEq, Repr

/-- The initial `SnakeGame` state: single segment at (10,10), food at
(15,15), both directions RIGHT. -/
def initialGame : GameState :=
  { snake := [⟨10, 10⟩], food := ⟨15, 15⟩
    currentDir := Direction.RIGHT, requestedDir := Direction.RIGHT }

/-- `generateFood` from `SnakeGame`: repeatedly draw a random cell until it
does not collide with the given snake.  The random source is an explicit
stream `rand` consumed one candidate per loop iteration starting at index
`i`; `fuel` bounds the number of iterations (the source's do-while loop has
no bound, so exhausted fuel models a run that has not yet terminated and is
returned as `none`). -/
def generateFood (rand : Nat → SnakeSegment) (currentSnake : List SnakeSegment) :
    Nat → Nat → Option SnakeSegment
  | 0, _ => none
  | fuel + 1, i =>
    let newFood := rand i
    if currentSnake.any (fun seg => segEq seg newFood) then
      generateFood rand currentSnake fuel (i + 1)
    else
      some newFood

/-- Head displacement by one cell in a direction (the `switch (moveDir)` of
the tick body; the y axis grows downward). -/
def moveHead : Direction → SnakeSegment → SnakeSegment
  | Direction.UP, h => { h with y := h.y - 1 }
  | Direction.DOWN, h => { h with y := h.y + 1 }
  | Direction.LEFT, h => { h with x := h.x - 1 }
  | Direction.RIGHT, h => { h with x := h.x + 1 }

/-- The wall-collision test of the tick body:
`head.x < 0 || head.x >= GRID_SIZE || head.y < 0 || head.y >= GRID_SIZE`. -/
def outOfBounds (p : SnakeSegment) : Bool :=
  decide (p.x < 0) || decide (GRID_SIZE ≤ p.x) ||
  decide (p.y < 0) || decide (GRID_SIZE ≤ p.y)

/-- What one tick reports to the host: the game-over callback with the final
score, the score-update callback with the new score, or silent movement. -/
inductive TickOutcome
  | gameOver (finalScore : Nat)
  | scoreUpdate (score : Nat)
  | moved
deriving DecidableEq, Repr

/-- One iteration of the `setInterval` body of `SnakeGame` (active only
while PLAYING; the guard lives in `fullTick` below).  Mirrors the source
order: commit the staged direction, move the head, test walls, test
self-collision against the whole pre-move snake, then prepend the head and
either regenerate food and keep the tail or pop the tail.  `none` models the
two situations with no defined next state in this embedding: an empty
segment list (unreachable from the initial state) and food regeneration that
has not terminated within `fuel` draws. -/
def tick (rand : Nat → SnakeSegment) (fuel : Nat) (g : GameState) :
    Option (GameState × TickOutcome) :=
  match g.snake with
  | [] => none
  | prev0 :: _ =>
    let moveDir := g.requestedDir
    let head := moveHead moveDir prev0
    if outOfBounds head then
      some ({ g with currentDir := moveDir }, TickOutcome.gameOver (g.snake.length - 1))
    else if g.snake.any (fun seg => segEq seg head) then
      some ({ g with currentDir := moveDir }, TickOutcome.gameOver (g.snake.length - 1))
    else
      let newSnake := head :: g.snake
      if segEq head g.food then
        match generateFood rand newSnake fuel 0 with
        | none => none
        | some f =>
          some ({ g with snake := newSnake, food := f, currentDir := moveDir },
                TickOutcome.scoreUpdate (newSnake.length - 1))
      else
        some ({ g with snake := newSnake.dropLast, currentDir := moveDir },
              TickOutcome.moved)

/-- The combined application state: the `App.tsx` component state
(`gameStatus`, `currentDirection` — here `direction`, the prop handed to
`SnakeGame` — and `score`) together with the `SnakeGame` state. -/
structure FullState where
  gameStatus : GameStatus
  direction : Direction
  score : Nat
  game : GameState
deriving DecidableEq, Repr

/-- Mount-time state: IDLE, direction RIGHT, score 0, initial game. -/
def initialFull : FullState :=
  { gameStatus := GameStatus.IDLE, direction := Direction.RIGHT
    score := 0, game := initialGame }

/-- `handleControlAction` from `App.tsx`: directions update the direction
prop only while PLAYING; START/RESTART set PLAYING, zero the score and set
the direction prop to RIGHT; STOP/PAUSE set PAUSED. -/
def handleControlAction (a : ControlAction) (s : FullState) : FullState :=
  match a with
  | ControlAction.dir d =>
    if s.gameStatus = GameStatus.PLAYING then { s with direction := d } else s
  | ControlAction.START =>
    { s with gameStatus := GameStatus.PLAYING, score := 0, direction := Direction.RIGHT }
  | ControlAction.RESTART =>
    { s with gameStatus := GameStatus.PLAYING, score := 0, direction := Direction.RIGHT }
  | ControlAction.STOP => { s with gameStatus := GameStatus.PAUSED }
  | ControlAction.PAUSE => { s with gameStatus := GameStatus.PAUSED }

/-- The direction-sync effect of `SnakeGame` (deps `[direction, currentDir]`):
stage the prop direction unless it is the exact reverse of the committed
direction. -/
def syncDirectionEffect (s : FullState) : FullState :=
  if isOpposite s.direction s.game.currentDir then s
  else { s with game := { s.game with requestedDir := s.direction } }

/-- The reset effect of `SnakeGame` (deps include `status`): when the status
is IDLE, restore the initial snake, food and directions and report score 0
(`onScoreUpdate(0)` sets the App score). -/
def idleResetEffect (s : FullState) : FullState :=
  if s.gameStatus = GameStatus.IDLE then { s with game := initialGame, score := 0 } else s

/-- Delivery of one control action: run `handleControlAction`, then the
`SnakeGame` effects that React re-runs exactly when their dependencies
changed — the reset effect on a status change, the direction-sync effect on
a direction-prop change (`currentDir` is never changed by an action). -/
def applyControl (a : ControlAction) (s : FullState) : FullState :=
  let s1 := handleControlAction a s
  let s2 := if s1.gameStatus = s.gameStatus then s1 else idleResetEffect s1
  if s2.direction = s.direction then s2 else syncDirectionEffect s2

/-- One timer firing at the application level: the interval body runs only
while PLAYING; its callbacks update the App state (`handleGameOver` sets
GAME_OVER and the final score; `onScoreUpdate` sets the score), and the
effects re-run on their changed dependencies (status change: reset effect;
`currentDir` change: direction-sync effect). -/
def fullTick (rand : Nat → SnakeSegment) (fuel : Nat) (s : FullState) :
    Option FullState :=
  if s.gameStatus ≠ GameStatus.PLAYING then some s
  else
    match tick rand fuel s.game with
    | none => none
    | some (g2, outcome) =>
      let s1 := { s with game := g2 }
      let s2 :=
        match outcome with
        | TickOutcome.gameOver n => { s1 with gameStatus := GameStatus.GAME_OVER, score := n }
        | TickOutcome.scoreUpdate n => { s1 with score := n }
        | TickOutcome.moved => s1
      let s3 := if s2.gameStatus = s.gameStatus then s2 else idleResetEffect s2
      some (if s3.game.currentDir = s.game.currentDir then s3 else syncDirectionEffect s3)

/-- An externally observable event: a control action delivered by the tool
call path, or a firing of the game-loop interval. -/
inductive GameEvent
  | act (a : ControlAction)
  | tick
deriving DecidableEq, Repr

/-- One event step on the combined state. -/
def stepEvent (rand : Nat → SnakeSegment) (fuel : Nat) :
    GameEvent → FullState → Option FullState
  | GameEvent.act a, s => some (applyControl a s)
  | GameEvent.tick, s => fullTick rand fuel s

/-- Run a sequence of events from a state. -/
def runEvents (rand : Nat → SnakeSegment) (fuel : Nat) :
    List GameEvent → FullState → Option FullState
  | [], s => some s
  | e :: es, s =>
    match stepEvent rand fuel e s with
    | none => none
    | some s2 => runEvents rand fuel es s2

/-- Playback scheduler state transition from
`GeminiLiveService.handleMessage`: clamp the cursor to the output clock,
start the buffer at the cursor, advance the cursor by the duration.  Returns
`(startTime, newNextStartTime)`. -/
def scheduleBuffer (clock dur nextStartTime : Rat) : Rat × Rat :=
  let start := max nextStartTime clock
  (start, start + dur)

/-- Schedule a whole arrival sequence of `(output clock at arrival,
duration)` pairs, returning the `(startTime, duration)` of each buffer in
order. -/
def scheduleAll (nextStartTime : Rat) : List (Rat × Rat) → List (Rat × Rat)
  | [] => []
  | (clock, dur) :: rest =>
    let sched := scheduleBuffer clock dur nextStartTime
    (sched.1, dur) :: scheduleAll sched.2 rest

/-- The session-level state of `GeminiLiveService`: the two audio contexts,
the capture stream (its track ids), the session handle, the playback cursor
`nextStartTime`, and the `sources` set of active playback nodes (their
ids).  `stop` nulls only the first four; it touches neither the cursor nor
the sources set. -/
structure ServiceState where
  inputAudioContext : Option Unit
  outputAudioContext : Option Unit
  mediaStream : Option (List Nat)
  session : Option Unit
  nextStartTime : Rat
  sources : List Nat
deriving DecidableEq, Repr

/-- The service state before `connect` is ever called. -/
def initialService : ServiceState :=
  { inputAudioContext := none, outputAudioContext := none
    mediaStream := none, session := none, nextStartTime := 0, sources := [] }

/-- Externally visible side effects of `stop`. -/
inductive StopEffect
  | statusChange (connected : Bool)
  | trackStop (id : Nat)
  | closeInput
  | closeOutput
deriving DecidableEq, Repr

/-- `GeminiLiveService.stop`: signal disconnected, stop every capture track
(optional chaining: nothing when the stream is null), close each present
audio context, and null the four resource fields.  The `nextStartTime`
cursor and the `sources` set are not reset — the source nulls only the
contexts, the stream and the session handle. -/
def stop (s : ServiceState) : ServiceState × List StopEffect :=
  let trackEffs :=
    match s.mediaStream with
    | none => []
    | some ts => ts.map StopEffect.trackStop
  let closeIn :=
    match s.inputAudioContext with
    | none => []
    | some _ => [StopEffect.closeInput]
  let closeOut :=
    match s.outputAudioContext with
    | none => []
    | some _ => [StopEffect.closeOutput]
  ({ inputAudioContext := none, outputAudioContext := none
     mediaStream := none, session := none, nextStartTime := s.nextStartTime
     sources := s.sources },
   StopEffect.statusChange false :: trackEffs ++ closeIn ++ closeOut)

/-! ## Helper lemmas -/

theorem isOpposite_self (d : Direction) : isOpposite d d = false := by
  cases d <;> rfl

theorem segEq_self (p : SnakeSegment) : segEq p p = true := by
  simp [segEq]

/-- Whenever the food-regeneration loop terminates, the drawn cell collides
with no segment of the snake it was checked against. -/
theorem generateFood_not_on_snake (rand : Nat → SnakeSegment)
    (snake : List SnakeSegment) :
    ∀ fuel i f, generateFood rand snake fuel i = some f →
      snake.any (fun seg => segEq seg f) = false := by
  intro fuel
  induction fuel with
  | zero => intro i f h; simp [generateFood] at h
  | succ n ih =>
    intro i f h
    simp only [generateFood] at h
    by_cases hc : snake.any (fun seg => segEq seg (rand i)) = true
    · rw [if_pos hc] at h
      exact ih _ _ h
    · rw [if_neg hc] at h
      simp only [Option.some.injEq] at h
      subst h
      simp only [Bool.not_eq_true] at hc
      exact hc

/-- Any tick ending the run (wall hit or self-collision) reports
`length - 1` and leaves snake and food untouched, committing only the
staged direction. -/
theorem tick_collision_aux (rand : Nat → SnakeSegment) (fuel : Nat)
    (g : GameState) (h0 : SnakeSegment) (t : List SnakeSegment)
    (hs : g.snake = h0 :: t)
    (hbad : outOfBounds (moveHead g.requestedDir h0) = true ∨
      g.snake.any (fun seg => segEq seg (moveHead g.requestedDir h0)) = true) :
    tick rand fuel g =
      some ({ g with currentDir := g.requestedDir },
            TickOutcome.gameOver (g.snake.length - 1)) := by
  obtain ⟨sn, fd, cd, rd⟩ := g
  dsimp only at hs hbad ⊢
  subst hs
  rcases hbad with hb | hb
  · simp [tick, hb]
  · by_cases ho : outOfBounds (moveHead rd h0) = true
    · simp [tick, ho]
    · simp only [Bool.not_eq_true] at ho
      simp [tick, ho, hb]

/-! ## Claim theorems -/

/-- Claim C5: on a PLAYING tick whose new head leaves the 20-by-20 grid or
lands on an existing segment, the game-over callback is invoked with the
segment count minus one, the snake (and food) are left unchanged, and the
invalid head is not applied. -/
theorem tick_collision_game_over (rand : Nat → SnakeSegment) (fuel : Nat)
    (g : GameState) (h0 : SnakeSegment) (t : List SnakeSegment)
    (hs : g.snake = h0 :: t)
    (hbad : outOfBounds (moveHead g.requestedDir h0) = true ∨
      g.snake.any (fun seg => segEq seg (moveHead g.requestedDir h0)) = true) :
    tick rand fuel g =
      some ({ g with currentDir := g.requestedDir },
            TickOutcome.gameOver (g.snake.length - 1)) :=
  tick_collision_aux rand fuel g h0 t hs hbad

def randZero : Nat → SnakeSegment := fun _ => ⟨0, 0⟩

def c5Game : GameState :=
  { snake := [⟨19, 10⟩], food := ⟨15, 15⟩
    currentDir := Direction.RIGHT, requestedDir := Direction.RIGHT }

/-- Witness for C5: a length-1 snake at (19,10) heading RIGHT steps out of
bounds and the tick reports game over with score 0 and the snake intact. -/
theorem tick_collision_game_over_witness :
    tick randZero 1 c5Game =
      some ({ c5Game with currentDir := c5Game.requestedDir },
            TickOutcome.gameOver (c5Game.snake.length - 1)) :=
  tick_collision_game_over randZero 1 c5Game ⟨19, 10⟩ [] rfl (Or.inl (by decide))

/-- Claim C10: self-collision is tested against the pre-move snake before
the tail is popped, so steering the head into the current tail cell ends the
run even though that cell would be vacated this very tick. -/
theorem tail_cell_collision_ends_game (rand : Nat → SnakeSegment) (fuel : Nat)
    (g : GameState) (h0 : SnakeSegment) (t : List SnakeSegment)
    (hs : g.snake = h0 :: t)
    (hlast : g.snake.getLast? = some (moveHead g.requestedDir h0))
    (hnofood : segEq (moveHead g.requestedDir h0) g.food = false) :
    tick rand fuel g =
      some ({ g with currentDir := g.requestedDir },
            TickOutcome.gameOver (g.snake.length - 1)) := by
  have hmem : moveHead g.requestedDir h0 ∈ g.snake := by
    obtain ⟨hne, hx⟩ := List.mem_getLast?_eq_getLast (show _ ∈ g.snake.getLast? from hlast)
    exact hx ▸ List.getLast_mem hne
  have hany : g.snake.any (fun seg => segEq seg (moveHead g.requestedDir h0)) = true :=
    List.any_eq_true.mpr ⟨_, hmem, segEq_self _⟩
  exact tick_collision_aux rand fuel g h0 t hs (Or.inr hany)

def c10Game : GameState :=
  { snake := [⟨5, 5⟩, ⟨6, 5⟩, ⟨6, 6⟩, ⟨5, 6⟩], food := ⟨15, 15⟩
    currentDir := Direction.RIGHT, requestedDir := Direction.DOWN }

/-- Witness for C10: head (5,5) of a length-4 snake steered DOWN into the
tail cell (5,6); the tick ends the game with score 3 and the snake intact. -/
theorem tail_cell_collision_ends_game_witness :
    tick randZero 1 c10Game =
      some ({ c10Game with currentDir := c10Game.requestedDir },
            TickOutcome.gameOver (c10Game.snake.length - 1)) :=
  tail_cell_collision_ends_game randZero 1 c10Game ⟨5, 5⟩ [⟨6, 5⟩, ⟨6, 6⟩, ⟨5, 6⟩]
    rfl (by decide) (by decide)

/-- Claim C7: food never spawns on an occupied segment — whenever
regeneration returns a cell, that cell collides with no segment of the
snake configuration it was given. -/
theorem generated_food_unoccupied (rand : Nat → SnakeSegment)
    (snake : List SnakeSegment) (fuel i : Nat) (f : SnakeSegment)
    (h : generateFood rand snake fuel i = some f) :
    snake.any (fun seg => segEq seg f) = false :=
  generateFood_not_on_snake rand snake fuel i f h

def c7Rand : Nat → SnakeSegment := fun i => if i = 0 then ⟨10, 10⟩ else ⟨2, 3⟩

/-- Witness for C7: the first candidate (10,10) collides with the snake and
is redrawn; the returned cell (2,3) is unoccupied. -/
theorem generated_food_unoccupied_witness :
    generateFood c7Rand [⟨10, 10⟩] 2 0 = some ⟨2, 3⟩ ∧
    List.any [(⟨10, 10⟩ : SnakeSegment)] (fun seg => segEq seg ⟨2, 3⟩) = false :=
  ⟨by decide, generated_food_unoccupied c7Rand [⟨10, 10⟩] 2 0 ⟨2, 3⟩ (by decide)⟩

/-- Claim C6: on a non-colliding PLAYING tick, if the new head lands on the
food the head is prepended with the tail retained (length grows by one), the
reported score equals the new length minus one, and the regenerated food
lies on no segment of the grown snake; otherwise the tail is dropped, the
length is unchanged and the food is untouched. -/
theorem tick_food_growth_and_tail_drop (rand : Nat → SnakeSegment) (fuel : Nat)
    (g : GameState) (h0 : SnakeSegment) (t : List SnakeSegment) (f : SnakeSegment)
    (hs : g.snake = h0 :: t)
    (hoob : outOfBounds (moveHead g.requestedDir h0) = false)
    (hcol : g.snake.any (fun seg => segEq seg (moveHead g.requestedDir h0)) = false)
    (hfood : generateFood rand (moveHead g.requestedDir h0 :: g.snake) fuel 0 = some f) :
    (segEq (moveHead g.requestedDir h0) g.food = true →
      tick rand fuel g =
        some ({ g with snake := moveHead g.requestedDir h0 :: g.snake, food := f
                       currentDir := g.requestedDir },
              TickOutcome.scoreUpdate ((moveHead g.requestedDir h0 :: g.snake).length - 1)) ∧
      (moveHead g.requestedDir h0 :: g.snake).length = g.snake.length + 1 ∧
      (moveHead g.requestedDir h0 :: g.snake).any (fun seg => segEq seg f) = false) ∧
    (segEq (moveHead g.requestedDir h0) g.food = false →
      tick rand fuel g =
        some ({ g with snake := (moveHead g.requestedDir h0 :: g.snake).dropLast
                       currentDir := g.requestedDir },
              TickOutcome.moved) ∧
      (moveHead g.requestedDir h0 :: g.snake).dropLast.length = g.snake.length) := by
  have hnotOn := generateFood_not_on_snake rand _ fuel 0 f hfood
  obtain ⟨sn, fd, cd, rd⟩ := g
  dsimp only at hs hoob hcol hfood hnotOn ⊢
  subst hs
  constructor
  · intro hf
    refine ⟨?_, by simp, hnotOn⟩
    simp [tick, hoob, hcol, hf, hfood]
  · intro hf
    refine ⟨?_, by simp⟩
    simp [tick, hoob, hcol, hf]

def c6Game : GameState :=
  { snake := [⟨14, 15⟩], food := ⟨15, 15⟩
    currentDir := Direction.RIGHT, requestedDir := Direction.RIGHT }

/-- Witness for C6: head (14,15) heading RIGHT reaches the food at (15,15);
the snake grows to length 2, the reported score is 1, and the regenerated
food (0,0) lies on no segment. -/
theorem tick_food_growth_and_tail_drop_witness :
    (segEq (moveHead c6Game.requestedDir ⟨14, 15⟩) c6Game.food = true →
      tick randZero 1 c6Game =
        some ({ c6Game with
                  snake := moveHead c6Game.requestedDir ⟨14, 15⟩ :: c6Game.snake
                  food := (⟨0, 0⟩ : SnakeSegment)
                  currentDir := c6Game.requestedDir },
              TickOutcome.scoreUpdate
                ((moveHead c6Game.requestedDir ⟨14, 15⟩ :: c6Game.snake).length - 1)) ∧
      (moveHead c6Game.requestedDir ⟨14, 15⟩ :: c6Game.snake).length = c6Game.snake.length + 1 ∧
      (moveHead c6Game.requestedDir ⟨14, 15⟩ :: c6Game.snake).any
        (fun seg => segEq seg ⟨0, 0⟩) = false) ∧
    (segEq (moveHead c6Game.requestedDir ⟨14, 15⟩) c6Game.food = false →
      tick randZero 1 c6Game =
        some ({ c6Game with
                  snake := (moveHead c6Game.requestedDir ⟨14, 15⟩ :: c6Game.snake).dropLast
                  currentDir := c6Game.requestedDir },
              TickOutcome.moved) ∧
      (moveHead c6Game.requestedDir ⟨14, 15⟩ :: c6Game.snake).dropLast.length
        = c6Game.snake.length) :=
  tick_food_growth_and_tail_drop randZero 1 c6Game ⟨14, 15⟩ [] ⟨0, 0⟩
    rfl (by decide) (by decide) (by decide)

/-- The double-buffering invariant: the staged direction is never the exact
reverse of the committed one. -/
def DirInv (s : FullState) : Prop :=
  isOpposite s.game.requestedDir s.game.currentDir = false

theorem syncDirectionEffect_inv (s : FullState) (h : DirInv s) :
    DirInv (syncDirectionEffect s) := by
  unfold DirInv syncDirectionEffect at *
  by_cases hc : isOpposite s.direction s.game.currentDir = true
  · rw [if_pos hc]; exact h
  · simp only [Bool.not_eq_true] at hc
    simp [hc]

theorem handleControlAction_game (a : ControlAction) (s : FullState) :
    (handleControlAction a s).game = s.game := by
  cases a <;> simp only [handleControlAction] <;> (try rfl) <;> split <;> rfl

theorem applyControl_inv (a : ControlAction) (s : FullState) (h : DirInv s) :
    DirInv (applyControl a s) := by
  have h1 : DirInv (handleControlAction a s) := by
    unfold DirInv
    rw [handleControlAction_game]
    exact h
  have h2 : DirInv (idleResetEffect (handleControlAction a s)) := by
    unfold DirInv idleResetEffect
    split
    · exact isOpposite_self _
    · exact h1
  simp only [applyControl]
  split
  · split
    · exact h1
    · exact syncDirectionEffect_inv _ h1
  · split
    · exact h2
    · exact syncDirectionEffect_inv _ h2

/-- The tick commits the staged direction and leaves the staged slot
alone. -/
theorem tick_dirs (rand : Nat → SnakeSegment) (fuel : Nat)
    (g g2 : GameState) (o : TickOutcome)
    (h : tick rand fuel g = some (g2, o)) :
    g2.currentDir = g.requestedDir ∧ g2.requestedDir = g.requestedDir := by
  obtain ⟨sn, fd, cd, rd⟩ := g
  cases sn with
  | nil => simp [tick] at h
  | cons h0 t =>
    simp only [tick] at h
    split at h
    · simp only [Option.some.injEq, Prod.mk.injEq] at h
      obtain ⟨hg, -⟩ := h
      subst hg
      exact ⟨rfl, rfl⟩
    · split at h
      · simp only [Option.some.injEq, Prod.mk.injEq] at h
        obtain ⟨hg, -⟩ := h
        subst hg
        exact ⟨rfl, rfl⟩
      · split at h
        · split at h
          · exact absurd h (by simp)
          · simp only [Option.some.injEq, Prod.mk.injEq] at h
            obtain ⟨hg, -⟩ := h
            subst hg
            exact ⟨rfl, rfl⟩
        · simp only [Option.some.injEq, Prod.mk.injEq] at h
          obtain ⟨hg, -⟩ := h
          subst hg
          exact ⟨rfl, rfl⟩

/-- A tick step never commits the reverse of the previously committed
direction, and re-establishes the invariant. -/
theorem fullTick_commit (rand : Nat → SnakeSegment) (fuel : Nat)
    (s s2 : FullState) (h : fullTick rand fuel s = some s2) (hinv : DirInv s) :
    isOpposite s2.game.currentDir s.game.currentDir = false ∧ DirInv s2 := by
  unfold fullTick at h
  by_cases hp : s.gameStatus ≠ GameStatus.PLAYING
  · rw [if_pos hp] at h
    simp only [Option.some.injEq] at h
    subst h
    exact ⟨isOpposite_self _, hinv⟩
  · rw [if_neg hp] at h
    cases htick : tick rand fuel s.game with
    | none => rw [htick] at h; exact absurd h (by simp)
    | some go =>
      obtain ⟨g2, o⟩ := go
      rw [htick] at h
      obtain ⟨hcd, hrd⟩ := tick_dirs rand fuel s.game g2 o htick
      simp only [Option.some.injEq] at h
      subst h
      have hinv2 : isOpposite g2.requestedDir g2.currentDir = false := by
        rw [hcd, hrd]; exact isOpposite_self _
      -- the scoreboard updates and the (no-op) reset effect leave the game
      -- state of the intermediate value equal to the tick result
      have key :
          ∀ u : FullState, u.game = g2 →
            isOpposite (if u.game.currentDir = s.game.currentDir then u
              else syncDirectionEffect u).game.currentDir s.game.currentDir = false ∧
            DirInv (if u.game.currentDir = s.game.currentDir then u
              else syncDirectionEffect u) := by
        intro u hu
        by_cases hc : u.game.currentDir = s.game.currentDir
        · rw [if_pos hc]
          refine ⟨by rw [hc]; exact isOpposite_self _, ?_⟩
          unfold DirInv
          rw [hu]
          exact hinv2
        · rw [if_neg hc]
          have hDu : DirInv u := by unfold DirInv; rw [hu]; exact hinv2
          have hsc : (syncDirectionEffect u).game.currentDir = u.game.currentDir := by
            unfold syncDirectionEffect
            split <;> rfl
          refine ⟨?_, syncDirectionEffect_inv u hDu⟩
          rw [hsc, hu, hcd]
          exact hinv
      -- reduce the outcome cases to `key`
      cases o with
      | gameOver n =>
        apply key
        split
        · rfl
        · unfold idleResetEffect
          split
          · rename_i hid
            exact absurd hid (by simp)
          · rfl
      | scoreUpdate n =>
        apply key
        split
        · rfl
        · rename_i hne
          exact absurd rfl hne
      | moved =>
        apply key
        split
        · rfl
        · rename_i hne
          exact absurd rfl hne

theorem runEvents_inv (rand : Nat → SnakeSegment) (fuel : Nat) :
    ∀ (es : List GameEvent) (s s2 : FullState),
      runEvents rand fuel es s = some s2 → DirInv s → DirInv s2 := by
  intro es
  induction es with
  | nil =>
    intro s s2 h hi
    simp only [runEvents, Option.some.injEq] at h
    subst h
    exact hi
  | cons e es ih =>
    intro s s2 h hi
    cases e with
    | act a =>
      simp only [runEvents, stepEvent] at h
      exact ih _ _ h (applyControl_inv a s hi)
    | tick =>
      simp only [runEvents, stepEvent] at h
      cases hft : fullTick rand fuel s with
      | none => rw [hft] at h; exact absurd h (by simp)
      | some s1 =>
        rw [hft] at h
        exact ih _ _ h (fullTick_commit rand fuel s s1 hft hi).2

/-- Claim C1: over every event sequence from the initial state (control
actions delivered at arbitrary times, ticks in between), the direction a
tick commits is never the exact reverse of the previously committed
direction — anti-reversal is checked against the committed slot, so no
same-tick burst of inputs can commit a reversal. -/
theorem committed_direction_never_reversed (rand : Nat → SnakeSegment)
    (fuel : Nat) (es : List GameEvent) (s s2 : FullState)
    (hrun : runEvents rand fuel es initialFull = some s)
    (htick : fullTick rand fuel s = some s2) :
    isOpposite s2.game.currentDir s.game.currentDir = false :=
  (fullTick_commit rand fuel s s2 htick
    (runEvents_inv rand fuel es initialFull s hrun rfl)).1

def c1Events : List GameEvent :=
  [GameEvent.act ControlAction.START,
   GameEvent.act (ControlAction.dir Direction.UP),
   GameEvent.act (ControlAction.dir Direction.DOWN),
   GameEvent.act (ControlAction.dir Direction.UP)]

def c1Mid : FullState :=
  { gameStatus := GameStatus.PLAYING, direction := Direction.UP, score := 0
    game := { snake := [⟨10, 10⟩], food := ⟨15, 15⟩
              currentDir := Direction.RIGHT, requestedDir := Direction.UP } }

def c1End : FullState :=
  { gameStatus := GameStatus.PLAYING, direction := Direction.UP, score := 0
    game := { snake := [⟨10, 9⟩], food := ⟨15, 15⟩
              currentDir := Direction.UP, requestedDir := Direction.UP } }

/-- Witness for C1: the rapid burst START, UP, DOWN, UP within one tick
window commits UP at the tick — not the reverse of the previously committed
RIGHT. -/
theorem committed_direction_never_reversed_witness :
    isOpposite c1End.game.currentDir c1Mid.game.currentDir = false :=
  committed_direction_never_reversed randZero 1 c1Events c1Mid c1End
    (by decide) (by decide)

def c2State : FullState :=
  { gameStatus := GameStatus.GAME_OVER, direction := Direction.RIGHT, score := 3
    game := { snake := [⟨3, 3⟩, ⟨4, 3⟩], food := ⟨7, 7⟩
              currentDir := Direction.RIGHT, requestedDir := Direction.RIGHT } }

/-- Counterexample to C2: a START received in GAME_OVER sets the status
directly to PLAYING — the state machine never passes through IDLE — and the
snake and food keep their pre-restart values instead of returning to the
initial single segment and initial food coordinate. -/
theorem restart_does_not_reset_cex :
    (applyControl ControlAction.START c2State).gameStatus = GameStatus.PLAYING ∧
    (applyControl ControlAction.START c2State).gameStatus ≠ GameStatus.IDLE ∧
    (applyControl ControlAction.START c2State).game.snake = c2State.game.snake ∧
    (applyControl ControlAction.START c2State).game.snake ≠ initialGame.snake ∧
    (applyControl ControlAction.START c2State).game.food ≠ initialGame.food := by
  decide

/-- Claim C2 (amended): a START or RESTART action sets the status directly
to PLAYING (never to IDLE), resets the score to 0 and the requested
direction prop to RIGHT, and leaves the simulation's snake and food
unchanged; the simulation state is restored to its initial snake, food and
directions only by the reset effect when the status is IDLE — which no
control action produces. -/
theorem restart_resumes_without_reset (a : ControlAction) (s : FullState)
    (ha : a = ControlAction.START ∨ a = ControlAction.RESTART) :
    (applyControl a s).gameStatus = GameStatus.PLAYING ∧
    (applyControl a s).score = 0 ∧
    (applyControl a s).direction = Direction.RIGHT ∧
    (applyControl a s).game.snake = s.game.snake ∧
    (applyControl a s).game.food = s.game.food ∧
    (idleResetEffect { s with gameStatus := GameStatus.IDLE }).game = initialGame ∧
    (idleResetEffect { s with gameStatus := GameStatus.IDLE }).score = 0 := by
  rcases ha with rfl | rfl <;>
    simp only [applyControl, handleControlAction, idleResetEffect, syncDirectionEffect] <;>
    split_ifs <;> simp_all

def c2Witness : FullState :=
  { gameStatus := GameStatus.PAUSED, direction := Direction.UP, score := 7
    game := { snake := [⟨1, 1⟩, ⟨1, 2⟩], food := ⟨4, 4⟩
              currentDir := Direction.UP, requestedDir := Direction.UP } }

/-- Witness for the amended C2 at a concrete PAUSED state. -/
theorem restart_resumes_without_reset_witness :
    (applyControl ControlAction.RESTART c2Witness).gameStatus = GameStatus.PLAYING ∧
    (applyControl ControlAction.RESTART c2Witness).score = 0 ∧
    (applyControl ControlAction.RESTART c2Witness).direction = Direction.RIGHT ∧
    (applyControl ControlAction.RESTART c2Witness).game.snake = c2Witness.game.snake ∧
    (applyControl ControlAction.RESTART c2Witness).game.food = c2Witness.game.food ∧
    (idleResetEffect { c2Witness with gameStatus := GameStatus.IDLE }).game = initialGame ∧
    (idleResetEffect { c2Witness with gameStatus := GameStatus.IDLE }).score = 0 :=
  restart_resumes_without_reset ControlAction.RESTART c2Witness (Or.inr rfl)

def c3State : FullState :=
  { gameStatus := GameStatus.GAME_OVER, direction := Direction.LEFT, score := 2
    game := { snake := [⟨5, 5⟩, ⟨6, 5⟩, ⟨7, 5⟩], food := ⟨9, 9⟩
              currentDir := Direction.LEFT, requestedDir := Direction.LEFT } }

/-- Counterexample to C3: after a game over while committed LEFT, a START
action does not make the committed direction RIGHT — the action only sets
the requested prop, and staging RIGHT is suppressed as the reverse of the
committed LEFT, so even the next tick still commits LEFT. -/
theorem start_committed_direction_cex :
    (applyControl ControlAction.START c3State).game.currentDir ≠ Direction.RIGHT ∧
    Option.map (fun u => u.game.currentDir)
      (fullTick randZero 1 (applyControl ControlAction.START c3State)) =
      some Direction.LEFT := by
  decide

/-- Claim C3 (amended): for every START or RESTART received in any state,
the status becomes PLAYING, the score becomes 0 and the requested
(App-level) direction becomes RIGHT; the simulation's committed direction is
unchanged by the action itself (it changes only at a tick, where the staged
RIGHT may additionally have been suppressed against the committed
direction). -/
theorem start_sets_requested_direction (a : ControlAction) (s : FullState)
    (ha : a = ControlAction.START ∨ a = ControlAction.RESTART) :
    (applyControl a s).gameStatus = GameStatus.PLAYING ∧
    (applyControl a s).score = 0 ∧
    (applyControl a s).direction = Direction.RIGHT ∧
    (applyControl a s).game.currentDir = s.game.currentDir := by
  rcases ha with rfl | rfl <;>
    simp only [applyControl, handleControlAction, idleResetEffect, syncDirectionEffect] <;>
    split_ifs <;> simp_all

def c3Witness : FullState :=
  { gameStatus := GameStatus.GAME_OVER, direction := Direction.DOWN, score := 5
    game := { snake := [⟨8, 8⟩], food := ⟨2, 2⟩
              currentDir := Direction.DOWN, requestedDir := Direction.DOWN } }

/-- Witness for the amended C3 at a concrete GAME_OVER state. -/
theorem start_sets_requested_direction_witness :
    (applyControl ControlAction.START c3Witness).gameStatus = GameStatus.PLAYING ∧
    (applyControl ControlAction.START c3Witness).score = 0 ∧
    (applyControl ControlAction.START c3Witness).direction = Direction.RIGHT ∧
    (applyControl ControlAction.START c3Witness).game.currentDir = c3Witness.game.currentDir :=
  start_sets_requested_direction ControlAction.START c3Witness (Or.inl rfl)

/-- Claim C8: a STOP or PAUSE action in any state sets the status to PAUSED
and leaves the snake segments, the food coordinate and the score untouched. -/
theorem stop_pause_sets_paused (a : ControlAction) (s : FullState)
    (ha : a = ControlAction.STOP ∨ a = ControlAction.PAUSE) :
    (applyControl a s).gameStatus = GameStatus.PAUSED ∧
    (applyControl a s).game.snake = s.game.snake ∧
    (applyControl a s).game.food = s.game.food ∧
    (applyControl a s).score = s.score := by
  rcases ha with rfl | rfl <;>
    simp only [applyControl, handleControlAction, idleResetEffect, syncDirectionEffect] <;>
    split_ifs <;> simp_all

def c8State : FullState :=
  { gameStatus := GameStatus.PLAYING, direction := Direction.UP, score := 4
    game := { snake := [⟨2, 2⟩, ⟨2, 3⟩], food := ⟨8, 8⟩
              currentDir := Direction.UP, requestedDir := Direction.UP } }

/-- Witness for C8: STOP while PLAYING pauses without mutating
snake/food/score. -/
theorem stop_pause_sets_paused_witness :
    (applyControl ControlAction.STOP c8State).gameStatus = GameStatus.PAUSED ∧
    (applyControl ControlAction.STOP c8State).game.snake = c8State.game.snake ∧
    (applyControl ControlAction.STOP c8State).game.food = c8State.game.food ∧
    (applyControl ControlAction.STOP c8State).score = c8State.score :=
  stop_pause_sets_paused ControlAction.STOP c8State (Or.inl rfl)

/-- Every start time produced by the scheduler is at or after the cursor it
started from (durations are nonnegative). -/
theorem scheduleAll_start_ge (bufs : List (Rat × Rat)) :
    ∀ nst : Rat, (∀ q ∈ bufs, 0 ≤ q.2) →
      ∀ p ∈ scheduleAll nst bufs, nst ≤ p.1 := by
  induction bufs with
  | nil =>
    intro nst _ p hp
    simp [scheduleAll] at hp
  | cons b rest ih =>
    intro nst hq p hp
    obtain ⟨c, d⟩ := b
    have hd : (0 : Rat) ≤ d := hq (c, d) (List.mem_cons_self _ _)
    simp only [scheduleAll, scheduleBuffer] at hp
    rcases List.mem_cons.mp hp with hp | hp
    · subst hp
      exact le_max_left _ _
    · have h1 : max nst c + d ≤ p.1 :=
        ih (max nst c + d) (fun q hqm => hq q (List.mem_cons_of_mem _ hqm)) p hp
      calc nst ≤ max nst c := le_max_left _ _
        _ ≤ max nst c + d := le_add_of_nonneg_right hd
        _ ≤ p.1 := h1

/-- Claim C4: for any arrival sequence of decoded buffers — each pair is the
output clock at arrival and a nonnegative duration — the scheduled start
times are non-decreasing and no two scheduled buffers overlap: every later
buffer starts no earlier than any earlier buffer's start plus its duration.
Each buffer starts at `max nextStartTime clock` and the cursor then advances
by the duration (this is `scheduleBuffer`). -/
theorem playback_schedule_no_overlap (bufs : List (Rat × Rat)) (nst : Rat)
    (hq : ∀ q ∈ bufs, 0 ≤ q.2) :
    List.Pairwise (fun a b : Rat × Rat => a.1 + a.2 ≤ b.1 ∧ a.1 ≤ b.1)
      (scheduleAll nst bufs) := by
  induction bufs generalizing nst with
  | nil => simp [scheduleAll]
  | cons b rest ih =>
    obtain ⟨c, d⟩ := b
    have hd : (0 : Rat) ≤ d := hq (c, d) (List.mem_cons_self _ _)
    have hrest : ∀ q ∈ rest, 0 ≤ q.2 := fun q hqm => hq q (List.mem_cons_of_mem _ hqm)
    simp only [scheduleAll, scheduleBuffer]
    refine List.Pairwise.cons ?_ (ih _ hrest)
    intro p hp
    have h1 : max nst c + d ≤ p.1 := scheduleAll_start_ge rest _ hrest p hp
    exact ⟨h1, le_trans (le_add_of_nonneg_right hd) h1⟩

def c4Bufs : List (Rat × Rat) := [(0, 1), (3, 2), (1, 1)]

/-- Witness for C4: three buffers arriving at clocks 0, 3, 1 with durations
1, 2, 1 get non-overlapping, non-decreasing start times. -/
theorem playback_schedule_no_overlap_witness :
    (∀ q ∈ c4Bufs, (0 : Rat) ≤ q.2) ∧
    List.Pairwise (fun a b : Rat × Rat => a.1 + a.2 ≤ b.1 ∧ a.1 ≤ b.1)
      (scheduleAll 0 c4Bufs) :=
  ⟨by decide, playback_schedule_no_overlap c4Bufs 0 (by decide)⟩

def c9State : ServiceState :=
  { inputAudioContext := some (), outputAudioContext := some ()
    mediaStream := some [0, 1], session := some ()
    nextStartTime := 5, sources := [3] }

/-- Counterexample to C9: `stop` does not null all session state.  On a
connected state with playback cursor 5 and one active playback node, the
torn-down state keeps the cursor at 5 (not its fresh value 0) and keeps the
sources set non-empty — only the contexts, the stream and the session
handle are nulled. -/
theorem stop_does_not_null_cursor_cex :
    (stop c9State).1.nextStartTime = 5 ∧
    (stop c9State).1.nextStartTime ≠ initialService.nextStartTime ∧
    (stop c9State).1.sources = c9State.sources ∧
    (stop c9State).1.sources ≠ initialService.sources := by
  decide

/-- Claim C9 (amended): `stop` is an idempotent teardown of the nullable
session handles.  It nulls the two audio contexts, the capture stream and
the session handle, signals disconnected status first, stops every capture
track, and closes each audio context that was open; being a total function
of the state it cannot throw, a second `stop` on the torn-down state
changes nothing and emits only the status signal, and `stop` on the
never-connected initial state is likewise safe.  The `nextStartTime`
cursor and the `sources` set of playback nodes, however, survive the
teardown untouched. -/
theorem stop_idempotent_teardown (s : ServiceState) :
    (stop s).1.inputAudioContext = none ∧
    (stop s).1.outputAudioContext = none ∧
    (stop s).1.mediaStream = none ∧
    (stop s).1.session = none ∧
    (stop s).1.nextStartTime = s.nextStartTime ∧
    (stop s).1.sources = s.sources ∧
    (stop s).2.head? = some (StopEffect.statusChange false) ∧
    List.Sublist ((s.mediaStream.getD []).map StopEffect.trackStop) (stop s).2 ∧
    (StopEffect.closeInput ∈ (stop s).2 ∨ s.inputAudioContext = none) ∧
    (StopEffect.closeOutput ∈ (stop s).2 ∨ s.outputAudioContext = none) ∧
    stop (stop s).1 = ((stop s).1, [StopEffect.statusChange false]) ∧
    stop initialService = (initialService, [StopEffect.statusChange false]) := by
  obtain ⟨ic, oc, ms, sess, nst, srcs⟩ := s
  refine ⟨rfl, rfl, rfl, rfl, rfl, rfl, rfl, ?_, ?_, ?_, rfl, rfl⟩
  · cases ms with
    | none => exact List.nil_sublist _
    | some ts =>
      simp only [stop, Option.getD]
      rw [List.append_assoc]
      exact List.Sublist.cons _ (List.sublist_append_left _ _)
  · cases ic with
    | none => exact Or.inr rfl
    | some u => exact Or.inl (by simp [stop])
  · cases oc with
    | none => exact Or.inr rfl
    | some u => exact Or.inl (by simp [stop])

end VoiceSnake
